import Mathlib

/-!
Verification of the StarRocks lake `TabletManager` (tablet_manager.cpp) and the
vectorized `ConnectorScanNode` / `ConnectorScanner` (connector_scan_node.cpp)
against their natural-language specification.  The C++ code is shallowly
embedded: protobuf messages become structures, statuses become an inductive
type, the object store becomes an association list keyed by version / txn id,
and the stateful scan-node code becomes explicit state passing (with a step
relation for the pending-token protocol).
-/

namespace StarRocks

/-- The status codes used by the two translation units (`common/status.h`).
Each non-OK constructor carries its message string, as in the C++ code. -/
inductive Status where
  | ok
  | notFound (msg : String)
  | corruption (msg : String)
  | invalidArgument (msg : String)
  | internalError (msg : String)
  | notSupported (msg : String)
  | endOfFile (msg : String)
  | aborted (msg : String)
  | cancelled (msg : String)
deriving DecidableEq, Repr

/-! ## Protobuf data model (gen_cpp/lake_types.pb.h as used by tablet_manager.cpp) -/

/-- `RowsetMetadata`: the fields of the protobuf message that
tablet_manager.cpp reads or writes (`id`, `segments` — only its size is used —
and `num_rows`).  `CopyFrom` is modelled by copying the whole structure. -/
structure RowsetMetadata where
  id : Nat
  segments : List String
  num_rows : Nat
deriving DecidableEq, Repr

/-- `TabletMetadata`: id, version, next_rowset_id and the ordered rowset list. -/
structure TabletMetadata where
  id : Nat
  version : Int
  next_rowset_id : Nat
  rowsets : List RowsetMetadata
deriving DecidableEq, Repr

/-- `TxnLogPB_OpWrite`: an optional rowset (`has_rowset`/`rowset`). -/
structure OpWrite where
  rowset : Option RowsetMetadata
deriving DecidableEq, Repr

/-- `TxnLogPB_OpCompaction`: the input rowset ids and the optional output
rowset. -/
structure OpCompaction where
  input_rowsets : List Nat
  output_rowset : Option RowsetMetadata
deriving DecidableEq, Repr

/-- `TxnLog`: optional tablet id and txn id, plus the three optional ops.
`op_schema_change` carries no field read by this code, so only its presence
bit is modelled. -/
structure TxnLog where
  tablet_id : Option Nat
  txn_id : Option Nat
  op_write : Option OpWrite
  op_compaction : Option OpCompaction
  op_schema_change : Bool
deriving DecidableEq, Repr

/-! ## Log application (tablet_manager.cpp, lines 346-418) -/

/-- `apply_write_log`: if the log carries a rowset with `num_rows() > 0`,
append a copy of it to `metadata.rowsets`, set its id to the current
`next_rowset_id` and advance `next_rowset_id` by `segments_size()`. -/
def apply_write_log (op_write : OpWrite) (metadata : TabletMetadata) :
    Status × TabletMetadata :=
  match op_write.rowset with
  | some r =>
      if r.num_rows > 0 then
        let rowset : RowsetMetadata := { r with id := metadata.next_rowset_id }
        (Status.ok,
          { metadata with
              rowsets := metadata.rowsets ++ [rowset],
              next_rowset_id := metadata.next_rowset_id + rowset.segments.length })
      else (Status.ok, metadata)
  | none => (Status.ok, metadata)

/-- `std::find_if(rowsets.begin() + start, rowsets.end(), Finder{id})`,
returned as an absolute index into the list (`none` = `end()`). -/
def findFrom (rowsets : List RowsetMetadata) (start : Nat) (id : Nat) : Option Nat :=
  match (rowsets.drop start).findIdx? (fun r => r.id == id) with
  | some j => some (start + j)
  | none => none

/-- The adjacency-check loop of `apply_compaction_log`
(`for (int i = 1, sz = metadata->rowsets_size(); i < sz; i++)`).
`pre` is `pre_input_pos` (an index), `i` the loop counter and `k` the number
of remaining iterations.  `input_rowsets(i)` with `i` out of range is
undefined behaviour of the protobuf repeated-field accessor; it is modelled
as `none` (crash).  Otherwise the result is `some (Except.error st)` for the
two `InternalError` returns and `some (Except.ok pre)` on loop exit. -/
def compactionScan (input_rowsets : List Nat) (rowsets : List RowsetMetadata)
    (pre i k : Nat) : Option (Except Status Nat) :=
  match k with
  | 0 => some (Except.ok pre)
  | k' + 1 =>
    match input_rowsets.get? i with
    | none => none
    | some input_id =>
      match findFrom rowsets (pre + 1) input_id with
      | none =>
          some (Except.error (Status.internalError
            ("input rowset " ++ toString input_id ++ " not exist")))
      | some it =>
          if it = pre + 1 then compactionScan input_rowsets rowsets it (i + 1) k'
          else some (Except.error (Status.internalError "input rowset position not adjacent"))

/-- `rowsets.erase(first, last)` on the metadata's repeated field, with
iterator positions given as indices. -/
def eraseRange (rowsets : List RowsetMetadata) (first last : Nat) : List RowsetMetadata :=
  rowsets.take first ++ rowsets.drop last

/-- `apply_compaction_log` (tablet_manager.cpp, lines 356-403).  `none`
models the out-of-range protobuf access in the adjacency loop (undefined
behaviour); `some (st, m)` is the returned status together with the final
value of `*metadata`. -/
def apply_compaction_log (op_compaction : OpCompaction) (metadata : TabletMetadata) :
    Option (Status × TabletMetadata) :=
  match op_compaction.input_rowsets with
  | [] => some (Status.ok, metadata)
  | input0 :: _ =>
    match findFrom metadata.rowsets 0 input0 with
    | none =>
        some (Status.internalError ("input rowset " ++ toString input0 ++ " not found"),
          metadata)
    | some first_input_pos =>
      match compactionScan op_compaction.input_rowsets metadata.rowsets
          first_input_pos 1 (metadata.rowsets.length - 1) with
      | none => none
      | some (Except.error st) => some (st, metadata)
      | some (Except.ok pre_input_pos) =>
        match op_compaction.output_rowset with
        | some out =>
          if out.num_rows > 0 then
            let output_rowset : RowsetMetadata := { out with id := metadata.next_rowset_id }
            let m1 : TabletMetadata :=
              { metadata with
                  rowsets := metadata.rowsets.set first_input_pos output_rowset,
                  next_rowset_id := metadata.next_rowset_id + output_rowset.segments.length }
            some (Status.ok,
              { m1 with rowsets := eraseRange m1.rowsets (first_input_pos + 1) (pre_input_pos + 1) })
          else
            some (Status.ok,
              { metadata with rowsets := eraseRange metadata.rowsets first_input_pos (pre_input_pos + 1) })
        | none =>
          some (Status.ok,
            { metadata with rowsets := eraseRange metadata.rowsets first_input_pos (pre_input_pos + 1) })

/-- `apply_txn_log` (tablet_manager.cpp, lines 405-418): op_write, then
op_compaction (each with `RETURN_IF_ERROR`), then the unconditional
`NotSupported` rejection of op_schema_change.  The returned metadata is the
final value of `*metadata`, which is mutated in place by the earlier steps
even when a later step fails. -/
def apply_txn_log (log : TxnLog) (metadata : TabletMetadata) :
    Option (Status × TabletMetadata) :=
  let wres : Status × TabletMetadata :=
    match log.op_write with
    | some ow => apply_write_log ow metadata
    | none => (Status.ok, metadata)
  if wres.1 ≠ Status.ok then some wres
  else
    match log.op_compaction with
    | some oc =>
      match apply_compaction_log oc wres.2 with
      | none => none
      | some cres =>
        if cres.1 ≠ Status.ok then some cres
        else if log.op_schema_change then
          some (Status.notSupported "does not support apply schema change log yet", cres.2)
        else some (Status.ok, cres.2)
    | none =>
      if log.op_schema_change then
        some (Status.notSupported "does not support apply schema change log yet", wres.2)
      else some (Status.ok, wres.2)

/-- The first two steps of `apply_txn_log` (op_write then op_compaction),
i.e. everything before the op_schema_change check. -/
def apply_ops_phase (log : TxnLog) (metadata : TabletMetadata) :
    Option (Status × TabletMetadata) :=
  let wres : Status × TabletMetadata :=
    match log.op_write with
    | some ow => apply_write_log ow metadata
    | none => (Status.ok, metadata)
  if wres.1 ≠ Status.ok then some wres
  else
    match log.op_compaction with
    | some oc => apply_compaction_log oc wres.2
    | none => some (Status.ok, wres.2)

/-! ## The object store seen by `publish` (tablet_manager.cpp, lines 420-472)

`publish` works on a single tablet, so the object store is modelled as two
association lists: metadata objects keyed by version (the location
`tbl_<id>_<version>`) and txn-log objects keyed by txn id (the location
`txn_<id>_<txnId>`).  Reads fail only with not-found; writes use
CREATE_OR_OPEN_WITH_TRUNCATE, i.e. they overwrite. -/

/-- The per-tablet object store. -/
structure Store where
  metas : List (Int × TabletMetadata)
  logs : List (Int × TxnLog)
deriving DecidableEq, Repr

/-- `tablet->get_metadata(version)`: `some` on success, `none` = not-found. -/
def getMeta (s : Store) (version : Int) : Option TabletMetadata :=
  (s.metas.find? (fun e => e.1 == version)).map (·.2)

/-- `tablet->get_txn_log(txn_id)`: `some` on success, `none` = not-found. -/
def getLog (s : Store) (txn_id : Int) : Option TxnLog :=
  (s.logs.find? (fun e => e.1 == txn_id)).map (·.2)

/-- `tablet->put_metadata(m)`: writes (with truncation) the object at the
location determined by the metadata's own version. -/
def putMeta (s : Store) (m : TabletMetadata) : Store :=
  { s with metas := (m.version, m) :: s.metas.filter (fun e => !(e.1 == m.version)) }

/-- `tablet->delete_txn_log(txn_id)`. -/
def deleteLog (s : Store) (txn_id : Int) : Store :=
  { s with logs := s.logs.filter (fun e => !(e.1 == txn_id)) }

/-- The best-effort deletion loop at the end of `publish`. -/
def deleteLogs (s : Store) (txns : List Int) : Store :=
  txns.foldl deleteLog s

/-- Outcome of the txn-log loop of `publish`: the early `return Status::OK()`
when a log is missing but the new version exists, an error return, a crash
propagated from `apply_txn_log`, or the fully applied metadata. -/
inductive PublishLoop where
  | earlyOk
  | fail (st : Status)
  | crash
  | done (m : TabletMetadata)
deriving DecidableEq, Repr

/-- The `for` loop over `txns` in `publish` (lines 440-457): load each txn
log, handle the not-found-but-new-version-exists retry case, apply the log. -/
def applyLogs (s : Store) (new_version : Int) :
    TabletMetadata → List Int → PublishLoop
  | m, [] => PublishLoop.done m
  | m, txnid :: rest =>
    match getLog s txnid with
    | none =>
        if (getMeta s new_version).isSome then PublishLoop.earlyOk
        else PublishLoop.fail (Status.notFound ("txn log " ++ toString txnid ++ " not found"))
    | some txnlog =>
      match apply_txn_log txnlog m with
      | none => PublishLoop.crash
      | some (st, m') =>
          if st = Status.ok then applyLogs s new_version m' rest
          else PublishLoop.fail st

/-- `publish` (tablet_manager.cpp, lines 420-472).  `none` models a crash
propagated from log application; otherwise the returned status together with
the final object store. -/
def publish (s : Store) (base_version new_version : Int) (txns : List Int) :
    Option (Status × Store) :=
  match getMeta s base_version with
  | none =>
      if (getMeta s new_version).isSome then some (Status.ok, s)
      else some (Status.notFound ("tablet metadata " ++ toString base_version ++ " not found"), s)
  | some base_metadata =>
    let new_metadata : TabletMetadata := { base_metadata with version := new_version }
    match applyLogs s new_version new_metadata txns with
    | PublishLoop.earlyOk => some (Status.ok, s)
    | PublishLoop.fail st => some (st, s)
    | PublishLoop.crash => none
    | PublishLoop.done m => some (Status.ok, deleteLogs (putMeta s m) txns)

/-! ## Connector scan node (connector_scan_node.cpp) -/

/-- `compute_priority` (connector_scan_node.cpp, lines 259-286): the
piecewise-constant aging table from submit counts (an `int32_t`) to nice
values. -/
def compute_priority (num_submitted_tasks : Int) : Int :=
  if num_submitted_tasks < 5 then 20
  else if num_submitted_tasks < 19 then 19
  else if num_submitted_tasks < 49 then 18
  else if num_submitted_tasks < 91 then 17
  else if num_submitted_tasks < 145 then 16
  else if num_submitted_tasks < 211 then 15
  else if num_submitted_tasks < 289 then 14
  else if num_submitted_tasks < 379 then 13
  else if num_submitted_tasks < 481 then 12
  else if num_submitted_tasks < 595 then 11
  else if num_submitted_tasks < 721 then 10
  else if num_submitted_tasks < 859 then 9
  else if num_submitted_tasks < 1009 then 8
  else if num_submitted_tasks < 1171 then 7
  else if num_submitted_tasks < 1345 then 6
  else if num_submitted_tasks < 1531 then 5
  else if num_submitted_tasks < 1729 then 4
  else if num_submitted_tasks < 1939 then 3
  else if num_submitted_tasks < 2161 then 2
  else if num_submitted_tasks < 2395 then 1
  else 0

/-- The two node counters touched by `_submit_scanner`. -/
structure SubmitCounters where
  running_threads : Int
  scanner_submit_count : Int
deriving DecidableEq, Repr

/-- `ConnectorScanNode::_submit_scanner` (lines 288-310).
`delta = int(!scanner->keep_priority())`; `num_submit` is the value of
`_scanner_submit_count` before the `fetch_add`; the task priority is
`compute_priority(num_submit)`; `running_threads` is incremented before the
offer.  `try_offer_ok` is the thread pool's response to the non-blocking
`try_offer` (the blocking `offer` always succeeds).  Returns the final
counters, the task priority and the boolean result. -/
def submit_scanner (c : SubmitCounters) (keep_priority blockable try_offer_ok : Bool) :
    SubmitCounters × Int × Bool :=
  let delta : Int := if keep_priority then 0 else 1
  let num_submit := c.scanner_submit_count
  let priority := compute_priority num_submit
  let c1 : SubmitCounters :=
    { running_threads := c.running_threads + 1,
      scanner_submit_count := c.scanner_submit_count + delta }
  if try_offer_ok then (c1, priority, true)
  else if blockable then (c1, priority, true)
  else
    ({ running_threads := c1.running_threads - 1,
       scanner_submit_count := c1.scanner_submit_count - delta }, priority, false)

/-- `ConnectorScanner`'s open-relevant state: the `_is_open` flag and a
count of how many times `_data_source->open(state)` has been invoked. -/
structure ScannerOpenState where
  is_open : Bool
  ds_open_calls : Nat
deriving DecidableEq, Repr

/-- `ConnectorScanner::open` (lines 61-66): if already open, return OK
without touching the data source; otherwise invoke the data source's open
(whose outcome is `ds_result`), propagate a failure, and set `_is_open` only
on success. -/
def scanner_open (s : ScannerOpenState) (ds_result : Status) : Status × ScannerOpenState :=
  if s.is_open then (Status.ok, s)
  else if ds_result ≠ Status.ok then
    (ds_result, { s with ds_open_calls := s.ds_open_calls + 1 })
  else (Status.ok, { is_open := true, ds_open_calls := s.ds_open_calls + 1 })

/-- A sequence of calls to `ConnectorScanner::open`, each with the outcome
the data source's open would have on that call. -/
def scanner_open_run (s : ScannerOpenState) : List Status → ScannerOpenState
  | [] => s
  | r :: rs => scanner_open_run (scanner_open s r).2 rs

/-- `atomic_cas(lvalue, rvalue, expect)` (lines 47-51): if `*lvalue == expect`
then swap `*lvalue` and `*rvalue` and return true.  Result: (return value,
new `*lvalue`, new `*rvalue`). -/
def atomic_cas (lvalue rvalue expect : Bool) : Bool × Bool × Bool :=
  if lvalue = expect then (true, rvalue, expect) else (false, lvalue, rvalue)

/-- `ConnectorScanner::acquire_pending_token(&token)` (lines 83-86):
`atomic_cas(token, &_pending_token, true)`.  Arguments and results are
(node slot, scanner slot). -/
def acquire_pending_token (node scanner : Bool) : Bool × Bool × Bool :=
  atomic_cas node scanner true

/-- `ConnectorScanner::release_pending_token(&token)` (lines 88-95): if the
scanner holds the token, clear it and set the node slot. -/
def release_pending_token (node scanner : Bool) : Bool × Bool × Bool :=
  if scanner then (true, true, false) else (false, node, scanner)

/-- The pending-token configuration of a scan node: the node-level
`_pending_token` slot and each scanner's `_pending_token`. -/
structure TokenState where
  node : Bool
  scanners : List Bool
deriving DecidableEq, Repr

/-- Total number of true tokens (node slot plus all scanners). -/
def tokenCount (s : TokenState) : Nat :=
  (if s.node then 1 else 0) + s.scanners.countP id

/-- The step relation on token configurations: any scanner may run
`acquire_pending_token` or `release_pending_token` against the node slot. -/
inductive TokenStep : TokenState → TokenState → Prop where
  | acquire (s : TokenState) (i : Nat) (h : i < s.scanners.length) :
      TokenStep s
        { node := (acquire_pending_token s.node (s.scanners.get ⟨i, h⟩)).2.1,
          scanners := s.scanners.set i (acquire_pending_token s.node (s.scanners.get ⟨i, h⟩)).2.2 }
  | release (s : TokenState) (i : Nat) (h : i < s.scanners.length) :
      TokenStep s
        { node := (release_pending_token s.node (s.scanners.get ⟨i, h⟩)).2.1,
          scanners := s.scanners.set i (release_pending_token s.node (s.scanners.get ⟨i, h⟩)).2.2 }

/-- The state of the consumer side of `ConnectorScanNode::get_next`:
`_num_rows_returned`, whether `_status` holds the end-of-file status, and
whether `_result_chunks` has been shut down. -/
structure ConsumerState where
  num_rows_returned : Int
  eof : Bool
  queue_shutdown : Bool
deriving DecidableEq, Repr

/-- Modelled from the spec: `reached_limit()` is inherited from `ExecNode`
(exec_node.h, not under src/).  Per the spec's scanner-side check
(`node.limit != -1 && ... >= node.limit`), the limit is disabled at -1 and
reached once the returned-row counter is at least the limit. -/
def reached_limit (limit num_rows_returned : Int) : Bool :=
  limit != -1 && num_rows_returned ≥ limit

/-- One call of the consumer loop of `ConnectorScanNode::get_next`
(lines 213-250): if `_status` already holds end-of-file the call returns no
rows (lines 215-219); otherwise a chunk of `chunk_rows` rows is taken from
the result queue, `_num_rows_returned` is advanced, and if the limit is
reached the chunk is truncated by `num_rows_over`, the status set to
end-of-file and the queue shut down.  Returns the new state and the number
of rows in the chunk handed to the caller. -/
def get_next_rows (limit : Int) (s : ConsumerState) (chunk_rows : Nat) :
    ConsumerState × Int :=
  if s.eof then (s, 0)
  else
    let r := s.num_rows_returned + chunk_rows
    if reached_limit limit r then
      let num_rows_over := r - limit
      ({ num_rows_returned := r, eof := true, queue_shutdown := true },
        (chunk_rows : Int) - num_rows_over)
    else ({ s with num_rows_returned := r }, (chunk_rows : Int))

/-- Total number of rows delivered to the caller over a run of `get_next`
calls, the queue producing chunks of the given row counts. -/
def consumer_run (limit : Int) (s : ConsumerState) : List Nat → Int
  | [] => 0
  | c :: cs =>
      (get_next_rows limit s c).2 + consumer_run limit (get_next_rows limit s c).1 cs

/-- Final consumer state after a run of `get_next` calls. -/
def consumer_final (limit : Int) (s : ConsumerState) : List Nat → ConsumerState
  | [] => s
  | c :: cs => consumer_final limit (get_next_rows limit s c).1 cs

/-- The consumer state at node start: no rows returned, `_status` OK, queue
live. -/
def initConsumer : ConsumerState :=
  { num_rows_returned := 0, eof := false, queue_shutdown := false }

/-! ## Metadata / txn-log writers and the metacache (tablet_manager.cpp) -/

/-- `TabletManager::fill_metacache` (lines 51-60): `Cache::insert` either
returns a handle (released, returns true) or null (value deleted, returns
false).  The argument is whether the cache accepted the entry. -/
def fill_metacache (insert_ok : Bool) : Bool := insert_ok

/-- Outcomes of the filesystem steps of a put operation, plus the cache's
response to the insert. -/
structure PutEnv where
  create_file : Status
  append_file : Status
  close_file : Status
  cache_insert_ok : Bool
deriving DecidableEq, Repr

/-- `TabletManager::put_tablet_metadata` (lines 149-161): create the
writable file, append the serialized bytes, close; each step propagates its
failure.  Then insert into the metacache — a failed insert is only logged.
Returns the status and whether the metadata ended up cached. -/
def put_tablet_metadata (metadata : TabletMetadata) (env : PutEnv) : Status × Bool :=
  if env.create_file ≠ Status.ok then (env.create_file, false)
  else if env.append_file ≠ Status.ok then (env.append_file, false)
  else if env.close_file ≠ Status.ok then (env.close_file, false)
  else (Status.ok, fill_metacache env.cache_insert_ok)

/-- `TabletManager::put_txn_log` (lines 267-285): reject logs without
tablet id or txn id with `InvalidArgument`, then the same write-then-cache
sequence as `put_tablet_metadata`. -/
def put_txn_log (log : TxnLog) (env : PutEnv) : Status × Bool :=
  if log.tablet_id = none then
    (Status.invalidArgument "txn log does not have tablet id", false)
  else if log.txn_id = none then
    (Status.invalidArgument "txn log does not have txn id", false)
  else if env.create_file ≠ Status.ok then (env.create_file, false)
  else if env.append_file ≠ Status.ok then (env.append_file, false)
  else if env.close_file ≠ Status.ok then (env.close_file, false)
  else (Status.ok, fill_metacache env.cache_insert_ok)

/-! ## Concrete fixtures used by witnesses and evidence theorems -/

/-- An empty tablet metadata at version 5 with `next_rowset_id = 7`. -/
def exMeta7 : TabletMetadata :=
  { id := 1, version := 5, next_rowset_id := 7, rowsets := [] }

/-- `exMeta7` after appending a one-segment rowset of 3 rows. -/
def exMeta8 : TabletMetadata :=
  { id := 1,
    version := 5,
    next_rowset_id := 8,
    rowsets := [{ id := 7, segments := ["a"], num_rows := 3 }] }

/-- A txn log carrying both an op_write (one rowset, 1 segment, 3 rows) and
an op_schema_change. -/
def exLogWS : TxnLog :=
  { tablet_id := some 1,
    txn_id := some 2,
    op_write := some { rowset := some { id := 0, segments := ["a"], num_rows := 3 } },
    op_compaction := none,
    op_schema_change := true }

/-- An empty tablet metadata at version 5 with `next_rowset_id = 1`. -/
def exMeta5 : TabletMetadata :=
  { id := 1, version := 5, next_rowset_id := 1, rowsets := [] }

/-- A write-only txn log adding one rowset of 2 segments and 10 rows. -/
def exLogW : TxnLog :=
  { tablet_id := some 1,
    txn_id := some 7,
    op_write := some { rowset := some { id := 0, segments := ["a", "b"], num_rows := 10 } },
    op_compaction := none,
    op_schema_change := false }

/-- A store holding `exMeta5` at version 5 and `exLogW` under txn id 7. -/
def exStore0 : Store :=
  { metas := [(5, exMeta5)], logs := [(7, exLogW)] }

/-- `exStore0` after `publish 5 → 6 {7}`: the applied metadata is stored at
version 6 and the txn log is deleted. -/
def exStore1 : Store :=
  { metas := [(6,
      { id := 1,
        version := 6,
        next_rowset_id := 3,
        rowsets := [{ id := 1, segments := ["a", "b"], num_rows := 10 }] }),
      (5, exMeta5)],
    logs := [] }

/-! ## Theorems about log application -/

/-- `apply_write_log` always returns `Status::OK()`. -/
theorem apply_write_log_fst (ow : OpWrite) (m : TabletMetadata) :
    (apply_write_log ow m).1 = Status.ok := by
  unfold apply_write_log
  rcases ow.rowset with _ | r
  · rfl
  · by_cases h : r.num_rows > 0 <;> simp [h]

/-- C2 (code_bug evidence): the adjacency loop of `apply_compaction_log` runs
for `metadata->rowsets_size() - 1` iterations instead of
`input_rowsets_size() - 1`.  Consequently (first conjunct) a compaction log
whose second input rowset `99` does not exist in the metadata at all is
applied successfully — it returns OK and erases rowset `10` — although the
code's own safety-check comment and the spec require an `internal_error` with
the metadata left unchanged; and (second conjunct) a perfectly adjacent
compaction of the first two of three rowsets reads `input_rowsets(2)` out of
range, which is undefined behaviour of the protobuf accessor (modelled as
`none`). -/
theorem apply_compaction_log_accepts_missing_input :
    apply_compaction_log { input_rowsets := [10, 99], output_rowset := none }
        { id := 1, version := 5, next_rowset_id := 11,
          rowsets := [{ id := 10, segments := ["a"], num_rows := 5 }] }
      = some (Status.ok, { id := 1, version := 5, next_rowset_id := 11, rowsets := [] })
    ∧ apply_compaction_log { input_rowsets := [1, 2], output_rowset := none }
        { id := 1, version := 5, next_rowset_id := 4,
          rowsets := [{ id := 1, segments := ["a"], num_rows := 1 },
                      { id := 2, segments := ["b"], num_rows := 1 },
                      { id := 3, segments := ["c"], num_rows := 1 }] }
      = none := by
  constructor <;> rfl

/-- C3: `apply_write_log` appends the log's rowset (when present with
`num_rows > 0`) with id `next_rowset_id` and advances `next_rowset_id` by its
segment count; a missing or zero-row rowset leaves the metadata unchanged;
applying two one-rowset write logs of 2 segments each yields rowset ids
`base` and `base + 2` and `next_rowset_id = base + 4`. -/
theorem apply_write_log_spec (metadata : TabletMetadata) (ow : OpWrite) :
    (∀ r, ow.rowset = some r → 0 < r.num_rows →
      apply_write_log ow metadata =
        (Status.ok,
          { metadata with
              rowsets := metadata.rowsets ++ [{ r with id := metadata.next_rowset_id }],
              next_rowset_id := metadata.next_rowset_id + r.segments.length }))
  ∧ (ow.rowset = none → apply_write_log ow metadata = (Status.ok, metadata))
  ∧ (∀ r, ow.rowset = some r → r.num_rows = 0 →
      apply_write_log ow metadata = (Status.ok, metadata))
  ∧ (∀ r1 r2, 0 < r1.num_rows → 0 < r2.num_rows →
      r1.segments.length = 2 → r2.segments.length = 2 →
      (apply_write_log { rowset := some r2 }
          (apply_write_log { rowset := some r1 } metadata).2).2.rowsets
        = metadata.rowsets ++
            [{ r1 with id := metadata.next_rowset_id },
             { r2 with id := metadata.next_rowset_id + 2 }]
      ∧ (apply_write_log { rowset := some r2 }
          (apply_write_log { rowset := some r1 } metadata).2).2.next_rowset_id
        = metadata.next_rowset_id + 4) := by
  refine ⟨?_, ?_, ?_, ?_⟩
  · intro r hr hpos
    simp [apply_write_log, hr, hpos]
  · intro h
    simp [apply_write_log, h]
  · intro r hr hzero
    simp [apply_write_log, hr, hzero]
  · intro r1 r2 h1 h2 hs1 hs2
    simp [apply_write_log, h1, h2, hs1, hs2]

/-- C3 witness: the theorem applied to a concrete metadata and write log. -/
theorem apply_write_log_spec_witness :
    apply_write_log { rowset := some { id := 0, segments := ["a", "b"], num_rows := 10 } }
        { id := 1, version := 5, next_rowset_id := 7, rowsets := [] }
      = (Status.ok,
          { id := 1, version := 5, next_rowset_id := 9,
            rowsets := [{ id := 7, segments := ["a", "b"], num_rows := 10 }] })
    ∧ (apply_write_log { rowset := some { id := 3, segments := ["c", "d"], num_rows := 4 } }
        (apply_write_log { rowset := some { id := 0, segments := ["a", "b"], num_rows := 10 } }
          { id := 1, version := 5, next_rowset_id := 7, rowsets := [] }).2).2.next_rowset_id = 11 := by
  have h := apply_write_log_spec
    { id := 1, version := 5, next_rowset_id := 7, rowsets := [] }
    { rowset := some { id := 0, segments := ["a", "b"], num_rows := 10 } }
  refine ⟨?_, ?_⟩
  · exact h.1 _ rfl (by decide)
  · exact (h.2.2.2 { id := 0, segments := ["a", "b"], num_rows := 10 }
      { id := 3, segments := ["c", "d"], num_rows := 4 }
      (by decide) (by decide) rfl rfl).2

/-- `apply_txn_log` is the op_write/op_compaction phase followed by the
op_schema_change rejection: an OK phase result is turned into
`not_supported` when the log carries an op_schema_change, keeping the
phase's (already mutated) metadata. -/
theorem apply_txn_log_eq (log : TxnLog) (metadata : TabletMetadata) :
    apply_txn_log log metadata =
      (apply_ops_phase log metadata).map (fun p =>
        if p.1 = Status.ok ∧ log.op_schema_change = true then
          (Status.notSupported "does not support apply schema change log yet", p.2)
        else p) := by
  unfold apply_txn_log apply_ops_phase
  cases hwo : log.op_write with
  | none =>
      simp only []
      cases hc : log.op_compaction with
      | none => by_cases hsc : log.op_schema_change <;> simp [hsc]
      | some oc =>
          rcases hcomp : apply_compaction_log oc metadata with _ | ⟨st2, m2⟩
          · simp [hcomp]
          · by_cases h2 : st2 = Status.ok <;> by_cases hsc : log.op_schema_change <;>
              simp [hcomp, h2, hsc]
  | some ow =>
      have hfst := apply_write_log_fst ow metadata
      simp only [hfst, ne_eq, not_true_eq_false, if_false, ite_false]
      cases hc : log.op_compaction with
      | none => by_cases hsc : log.op_schema_change <;> simp [hfst, hsc]
      | some oc =>
          rcases hcomp : apply_compaction_log oc (apply_write_log ow metadata).2
            with _ | ⟨st2, m2⟩
          · simp [hfst, hcomp]
          · by_cases h2 : st2 = Status.ok <;> by_cases hsc : log.op_schema_change <;>
              simp [hfst, hcomp, h2, hsc]

/-- C8: `apply_txn_log` is not atomic per log.  First conjunct: whenever the
op_write/op_compaction phase of a log succeeds and ends in metadata `m1`, a
log that also carries an op_schema_change returns `not_supported` with the
in-memory metadata already mutated to `m1`.  Second conjunct: an OK result is
possible only for a log without op_schema_change.  Third conjunct: a concrete
log carrying both an op_write and an op_schema_change for which the returned
metadata differs from the input metadata even though the status is an
error. -/
theorem apply_txn_log_not_atomic (log : TxnLog) (metadata m1 : TabletMetadata) :
    (log.op_schema_change = true →
      apply_ops_phase log metadata = some (Status.ok, m1) →
      apply_txn_log log metadata =
        some (Status.notSupported "does not support apply schema change log yet", m1))
  ∧ (∀ st m', apply_txn_log log metadata = some (st, m') → st = Status.ok →
      log.op_schema_change = false)
  ∧ (∃ (logW : TxnLog) (md0 md1 : TabletMetadata),
      logW.op_schema_change = true
      ∧ apply_ops_phase logW md0 = some (Status.ok, md1)
      ∧ md1 ≠ md0
      ∧ apply_txn_log logW md0 = some
          (Status.notSupported "does not support apply schema change log yet", md1)) := by
  refine ⟨?_, ?_, ?_⟩
  · intro hsc hphase
    rw [apply_txn_log_eq, hphase]
    simp [hsc]
  · intro st m' happ hok
    subst hok
    rw [apply_txn_log_eq] at happ
    rcases hphase : apply_ops_phase log metadata with _ | p
    · rw [hphase] at happ; exact absurd happ (by simp)
    · rw [hphase] at happ
      simp only [Option.map_some', Option.some.injEq] at happ
      by_cases hsc : log.op_schema_change
      · by_cases hpok : p.1 = Status.ok
        · rw [if_pos ⟨hpok, hsc⟩] at happ
          exact absurd (congrArg Prod.fst happ) (by simp)
        · rw [if_neg (fun hand => hpok hand.1)] at happ
          exact absurd (congrArg Prod.fst happ) (by simp [hpok])
      · simpa using hsc
  · exact ⟨exLogWS, exMeta7, exMeta8, rfl, rfl, by decide, rfl⟩

/-- C8 witness: the first conjunct applied to the concrete log and metadata
of the third conjunct. -/
theorem apply_txn_log_not_atomic_witness :
    apply_txn_log exLogWS exMeta7
      = some (Status.notSupported "does not support apply schema change log yet", exMeta8) :=
  (apply_txn_log_not_atomic exLogWS exMeta7 exMeta8).1 rfl rfl

/-! ## Helper lemmas for the publish protocol -/

/-- `apply_write_log` never changes the metadata's version. -/
theorem apply_write_log_version (ow : OpWrite) (m : TabletMetadata) :
    ((apply_write_log ow m).2).version = m.version := by
  unfold apply_write_log
  rcases ow.rowset with _ | r
  · rfl
  · by_cases h : r.num_rows > 0 <;> simp [h]

/-- `apply_compaction_log` never changes the metadata's version. -/
theorem apply_compaction_log_version (oc : OpCompaction) (m : TabletMetadata)
    (st : Status) (m' : TabletMetadata)
    (h : apply_compaction_log oc m = some (st, m')) : m'.version = m.version := by
  unfold apply_compaction_log at h
  repeat' split at h
  all_goals simp_all
  all_goals (obtain ⟨h1, h2⟩ := h; rw [← h2])

/-- The op_write/op_compaction phase never changes the metadata's version. -/
theorem apply_ops_phase_version (log : TxnLog) (m : TabletMetadata)
    (st : Status) (m' : TabletMetadata)
    (h : apply_ops_phase log m = some (st, m')) : m'.version = m.version := by
  unfold apply_ops_phase at h
  cases hwo : log.op_write with
  | none =>
      rw [hwo] at h
      simp only [ne_eq, not_true_eq_false, if_false, ite_false] at h
      cases hc : log.op_compaction with
      | none => rw [hc] at h; simp at h; rw [← h.2]
      | some oc => rw [hc] at h; exact apply_compaction_log_version oc m st m' h
  | some ow =>
      rw [hwo] at h
      have hfst := apply_write_log_fst ow m
      simp only [hfst, ne_eq, not_true_eq_false, if_false, ite_false] at h
      cases hc : log.op_compaction with
      | none =>
          rw [hc] at h; simp at h
          rw [← h.2]; exact apply_write_log_version ow m
      | some oc =>
          rw [hc] at h
          have := apply_compaction_log_version oc (apply_write_log ow m).2 st m' h
          rw [this]; exact apply_write_log_version ow m

/-- `apply_txn_log` never changes the metadata's version. -/
theorem apply_txn_log_version (log : TxnLog) (m : TabletMetadata)
    (st : Status) (m' : TabletMetadata)
    (h : apply_txn_log log m = some (st, m')) : m'.version = m.version := by
  rw [apply_txn_log_eq] at h
  rcases hphase : apply_ops_phase log m with _ | p
  · rw [hphase] at h; exact absurd h (by simp)
  · rw [hphase] at h
    simp only [Option.map_some', Option.some.injEq] at h
    rcases p with ⟨pst, pm⟩
    have hv := apply_ops_phase_version log m pst pm hphase
    split at h <;>
      (have h2 := congrArg Prod.snd h; simp only [] at h2; rw [← h2]; exact hv)

/-- The publish loop never changes the metadata's version. -/
theorem applyLogs_version (s : Store) (nv : Int) (ts : List Int)
    (m m' : TabletMetadata) (h : applyLogs s nv m ts = PublishLoop.done m') :
    m'.version = m.version := by
  induction ts generalizing m with
  | nil => simp [applyLogs] at h; rw [h]
  | cons t rest ih =>
      rw [applyLogs] at h
      rcases hl : getLog s t with _ | log <;> simp only [hl] at h
      · split at h <;> cases h
      · rcases happ : apply_txn_log log m with _ | ⟨st2, m2⟩ <;> simp only [happ] at h
        · cases h
        · by_cases hok : st2 = Status.ok
          · rw [if_pos hok] at h
            rw [ih m2 h]
            exact apply_txn_log_version log m st2 m2 happ
          · rw [if_neg hok] at h; cases h

/-- The publish loop never fails with `Status.ok`. -/
theorem applyLogs_fail_status (s : Store) (nv : Int) (ts : List Int)
    (m : TabletMetadata) (st : Status)
    (h : applyLogs s nv m ts = PublishLoop.fail st) : st ≠ Status.ok := by
  induction ts generalizing m with
  | nil => simp [applyLogs] at h
  | cons t rest ih =>
      rw [applyLogs] at h
      rcases hl : getLog s t with _ | log <;> simp only [hl] at h
      · split at h
        · cases h
        · cases h; simp
      · rcases happ : apply_txn_log log m with _ | ⟨st2, m2⟩ <;> simp only [happ] at h
        · cases h
        · by_cases hok : st2 = Status.ok
          · rw [if_pos hok] at h; exact ih m2 h
          · rw [if_neg hok] at h; cases h; exact hok

/-- Deleting txn logs leaves the metadata objects untouched. -/
theorem deleteLogs_metas (s : Store) (ts : List Int) :
    (deleteLogs s ts).metas = s.metas := by
  induction ts generalizing s with
  | nil => rfl
  | cons t rest ih => exact ih (deleteLog s t)

/-- `getMeta` is unaffected by txn-log deletion. -/
theorem getMeta_deleteLogs (s : Store) (ts : List Int) (v : Int) :
    getMeta (deleteLogs s ts) v = getMeta s v := by
  unfold getMeta; rw [deleteLogs_metas]

/-- Reading back the version just written returns the written metadata. -/
theorem getMeta_putMeta_self (s : Store) (m : TabletMetadata) :
    getMeta (putMeta s m) m.version = some m := by
  simp [getMeta, putMeta, List.find?_cons]

/-- `find?` commutes with a filter that keeps everything the predicate can
match. -/
theorem find?_filter_of_imp {α : Type _} (l : List α) (p q : α → Bool)
    (h : ∀ e, p e = true → q e = true) :
    (l.filter q).find? p = l.find? p := by
  induction l with
  | nil => rfl
  | cons a l ih =>
      by_cases hq : q a = true
      · rw [List.filter_cons_of_pos hq]
        by_cases hp : p a = true
        · rw [List.find?_cons_of_pos _ hp, List.find?_cons_of_pos _ hp]
        · rw [List.find?_cons_of_neg _ (by simp_all), List.find?_cons_of_neg _ (by simp_all)]
          exact ih
      · have hp : ¬p a = true := fun hp => hq (h a hp)
        rw [List.filter_cons_of_neg (by simp_all), List.find?_cons_of_neg _ (by simp_all)]
        exact ih

/-- Writing metadata at one version does not affect reads of another. -/
theorem getMeta_putMeta_ne (s : Store) (m : TabletMetadata) (v : Int)
    (h : v ≠ m.version) : getMeta (putMeta s m) v = getMeta s v := by
  unfold getMeta putMeta
  simp only []
  rw [List.find?_cons_of_neg _ (by simp [Ne.symm h])]
  rw [find?_filter_of_imp]
  intro e he
  simp only [beq_iff_eq] at he
  simp [he, h]

/-- Writing metadata does not affect the txn logs. -/
theorem getLog_putMeta (s : Store) (m : TabletMetadata) (t : Int) :
    getLog (putMeta s m) t = getLog s t := rfl

/-- An absent txn log stays absent under further deletion. -/
theorem getLog_deleteLog_mono (s : Store) (td t : Int)
    (h : getLog s t = none) : getLog (deleteLog s td) t = none := by
  unfold getLog deleteLog at *
  simp only [Option.map_eq_none'] at *
  rw [List.find?_eq_none] at *
  intro x hx
  exact h x (List.mem_of_mem_filter hx)

/-- Deleting a txn log removes it. -/
theorem getLog_deleteLog_self (s : Store) (t : Int) :
    getLog (deleteLog s t) t = none := by
  unfold getLog deleteLog
  simp only [Option.map_eq_none']
  rw [List.find?_eq_none]
  intro x hx hbeq
  have := List.of_mem_filter hx
  simp_all

/-- An absent txn log stays absent through the whole deletion loop. -/
theorem getLog_deleteLogs_mono (s : Store) (ts : List Int) (t : Int)
    (h : getLog s t = none) : getLog (deleteLogs s ts) t = none := by
  induction ts generalizing s with
  | nil => exact h
  | cons a rest ih => exact ih (deleteLog s a) (getLog_deleteLog_mono s a t h)

/-- After the deletion loop, every deleted txn log reads as missing. -/
theorem getLog_deleteLogs_of_mem (s : Store) (ts : List Int) (t : Int)
    (h : t ∈ ts) : getLog (deleteLogs s ts) t = none := by
  induction ts generalizing s with
  | nil => cases h
  | cons a rest ih =>
      rcases List.mem_cons.mp h with rfl | hmem
      · exact getLog_deleteLogs_mono (deleteLog s t) rest t (getLog_deleteLog_self s t)
      · exact ih (deleteLog s a) hmem

/-- C1: publish is idempotent.  First conjunct: if
`publish base_version → new_version {txns}` succeeded with resulting store
`s1`, running it again with identical arguments returns OK and leaves the
metadata object at `new_version` unchanged.  Second conjunct: when the base
metadata is missing but `new_version` exists, publish returns OK without
writing (store unchanged).  Third conjunct: when the base loads but the first
txn log is missing and `new_version` exists, publish returns OK without
writing. -/
theorem publish_idempotent (s : Store) (base_version new_version : Int)
    (txns : List Int) :
    (∀ s1, publish s base_version new_version txns = some (Status.ok, s1) →
      ∃ s2, publish s1 base_version new_version txns = some (Status.ok, s2)
        ∧ getMeta s2 new_version = getMeta s1 new_version)
  ∧ (getMeta s base_version = none → (getMeta s new_version).isSome = true →
      publish s base_version new_version txns = some (Status.ok, s))
  ∧ (∀ bm t ts2, getMeta s base_version = some bm → txns = t :: ts2 →
      getLog s t = none → (getMeta s new_version).isSome = true →
      publish s base_version new_version txns = some (Status.ok, s)) := by
  refine ⟨?_, ?_, ?_⟩
  · intro s1 h
    rcases hb : getMeta s base_version with _ | bm <;> simp only [publish, hb] at h
    · by_cases hn : (getMeta s new_version).isSome = true
      · rw [if_pos hn] at h
        simp only [Option.some.injEq, Prod.mk.injEq] at h
        obtain ⟨-, hs1⟩ := h
        subst hs1
        refine ⟨s, ?_, rfl⟩
        simp only [publish, hb]
        rw [if_pos hn]
      · rw [if_neg hn] at h
        simp at h
    · rcases hl : applyLogs s new_version { bm with version := new_version } txns
          with _ | st | _ | m <;> simp only [hl] at h
      · -- early-OK retry path: the store was not modified
        simp only [Option.some.injEq, Prod.mk.injEq] at h
        obtain ⟨-, hs1⟩ := h
        subst hs1
        refine ⟨s, ?_, rfl⟩
        simp only [publish, hb, hl]
      · -- a failing loop cannot have produced status OK
        simp only [Option.some.injEq, Prod.mk.injEq] at h
        exact absurd h.1 (applyLogs_fail_status s new_version txns _ st hl)
      · cases h
      · -- the full path: metadata written at new_version, txn logs deleted
        simp only [Option.some.injEq, Prod.mk.injEq] at h
        obtain ⟨-, hs1⟩ := h
        have hver : m.version = new_version := by
          have := applyLogs_version s new_version txns _ m hl
          simpa using this
        have hnew : getMeta s1 new_version = some m := by
          rw [← hs1, getMeta_deleteLogs, ← hver]
          exact getMeta_putMeta_self s m
        by_cases hbn : base_version = new_version
        · subst hbn
          have hmm : { m with version := base_version } = m := by
            cases m; simp_all
          simp only [publish, hnew, hmm]
          cases txns with
          | nil =>
              simp only [applyLogs]
              refine ⟨_, rfl, ?_⟩
              rw [getMeta_deleteLogs]
              have hself := getMeta_putMeta_self s1 m
              rw [hver] at hself
              rw [hself]
          | cons t ts2 =>
              have hlog : getLog s1 t = none := by
                rw [← hs1]
                exact getLog_deleteLogs_of_mem _ _ _ (List.mem_cons_self t ts2)
              simp only [applyLogs, hlog, hnew, Option.isSome_some, if_true]
              exact ⟨s1, rfl, hnew⟩
        · have hb1 : getMeta s1 base_version = some bm := by
            rw [← hs1, getMeta_deleteLogs,
              getMeta_putMeta_ne s m base_version (by rw [hver]; exact hbn), hb]
          simp only [publish, hb1]
          cases txns with
          | nil =>
              simp only [applyLogs] at hl
              cases hl
              simp only [applyLogs]
              refine ⟨_, rfl, ?_⟩
              rw [getMeta_deleteLogs, hnew]
              exact getMeta_putMeta_self s1 _
          | cons t ts2 =>
              have hlog : getLog s1 t = none := by
                rw [← hs1]
                exact getLog_deleteLogs_of_mem _ _ _ (List.mem_cons_self t ts2)
              simp only [applyLogs, hlog, hnew, Option.isSome_some, if_true]
              exact ⟨s1, rfl, hnew⟩
  · intro hb hn
    simp only [publish, hb]
    rw [if_pos hn]
  · intro bm t ts2 hbm htxns hlogt hsome
    subst htxns
    simp only [publish, hbm, applyLogs, hlogt]
    rw [if_pos hsome]

/-- C1 witness: a successful concrete publish (5 → 6, one write log) replayed
with identical arguments returns OK and leaves the metadata at version 6
unchanged. -/
theorem publish_idempotent_witness :
    ∃ s2, publish exStore1 5 6 [7] = some (Status.ok, s2)
      ∧ getMeta s2 6 = getMeta exStore1 6 :=
  (publish_idempotent exStore0 5 6 [7]).1 exStore1 (by decide)

/-! ## Theorems about the connector scan node -/

/-- Value of `compute_priority` on each step of the aging table. -/
theorem cp_interval_0 (n : Int) (h : n < 5) : compute_priority n = 20 := by
  unfold compute_priority
  rw [if_pos h]

/-- Aging-table step 1. -/
theorem cp_interval_1 (n : Int) (h1 : 5 ≤ n) (h2 : n < 19) : compute_priority n = 19 := by
  unfold compute_priority
  repeat rw [if_neg (by omega)]
  rw [if_pos (by omega)]

/-- Aging-table step 2. -/
theorem cp_interval_2 (n : Int) (h1 : 19 ≤ n) (h2 : n < 49) : compute_priority n = 18 := by
  unfold compute_priority
  repeat rw [if_neg (by omega)]
  rw [if_pos (by omega)]

/-- Aging-table step 3. -/
theorem cp_interval_3 (n : Int) (h1 : 49 ≤ n) (h2 : n < 91) : compute_priority n = 17 := by
  unfold compute_priority
  repeat rw [if_neg (by omega)]
  rw [if_pos (by omega)]

/-- Aging-table step 4. -/
theorem cp_interval_4 (n : Int) (h1 : 91 ≤ n) (h2 : n < 145) : compute_priority n = 16 := by
  unfold compute_priority
  repeat rw [if_neg (by omega)]
  rw [if_pos (by omega)]

/-- Aging-table step 5. -/
theorem cp_interval_5 (n : Int) (h1 : 145 ≤ n) (h2 : n < 211) : compute_priority n = 15 := by
  unfold compute_priority
  repeat rw [if_neg (by omega)]
  rw [if_pos (by omega)]

/-- Aging-table step 6. -/
theorem cp_interval_6 (n : Int) (h1 : 211 ≤ n) (h2 : n < 289) : compute_priority n = 14 := by
  unfold compute_priority
  repeat rw [if_neg (by omega)]
  rw [if_pos (by omega)]

/-- Aging-table step 7. -/
theorem cp_interval_7 (n : Int) (h1 : 289 ≤ n) (h2 : n < 379) : compute_priority n = 13 := by
  unfold compute_priority
  repeat rw [if_neg (by omega)]
  rw [if_pos (by omega)]

/-- Aging-table step 8. -/
theorem cp_interval_8 (n : Int) (h1 : 379 ≤ n) (h2 : n < 481) : compute_priority n = 12 := by
  unfold compute_priority
  repeat rw [if_neg (by omega)]
  rw [if_pos (by omega)]

/-- Aging-table step 9. -/
theorem cp_interval_9 (n : Int) (h1 : 481 ≤ n) (h2 : n < 595) : compute_priority n = 11 := by
  unfold compute_priority
  repeat rw [if_neg (by omega)]
  rw [if_pos (by omega)]

/-- Aging-table step 10. -/
theorem cp_interval_10 (n : Int) (h1 : 595 ≤ n) (h2 : n < 721) : compute_priority n = 10 := by
  unfold compute_priority
  repeat rw [if_neg (by omega)]
  rw [if_pos (by omega)]

/-- Aging-table step 11. -/
theorem cp_interval_11 (n : Int) (h1 : 721 ≤ n) (h2 : n < 859) : compute_priority n = 9 := by
  unfold compute_priority
  repeat rw [if_neg (by omega)]
  rw [if_pos (by omega)]

/-- Aging-table step 12. -/
theorem cp_interval_12 (n : Int) (h1 : 859 ≤ n) (h2 : n < 1009) : compute_priority n = 8 := by
  unfold compute_priority
  repeat rw [if_neg (by omega)]
  rw [if_pos (by omega)]

/-- Aging-table step 13. -/
theorem cp_interval_13 (n : Int) (h1 : 1009 ≤ n) (h2 : n < 1171) : compute_priority n = 7 := by
  unfold compute_priority
  repeat rw [if_neg (by omega)]
  rw [if_pos (by omega)]

/-- Aging-table step 14. -/
theorem cp_interval_14 (n : Int) (h1 : 1171 ≤ n) (h2 : n < 1345) : compute_priority n = 6 := by
  unfold compute_priority
  repeat rw [if_neg (by omega)]
  rw [if_pos (by omega)]

/-- Aging-table step 15. -/
theorem cp_interval_15 (n : Int) (h1 : 1345 ≤ n) (h2 : n < 1531) : compute_priority n = 5 := by
  unfold compute_priority
  repeat rw [if_neg (by omega)]
  rw [if_pos (by omega)]

/-- Aging-table step 16. -/
theorem cp_interval_16 (n : Int) (h1 : 1531 ≤ n) (h2 : n < 1729) : compute_priority n = 4 := by
  unfold compute_priority
  repeat rw [if_neg (by omega)]
  rw [if_pos (by omega)]

/-- Aging-table step 17. -/
theorem cp_interval_17 (n : Int) (h1 : 1729 ≤ n) (h2 : n < 1939) : compute_priority n = 3 := by
  unfold compute_priority
  repeat rw [if_neg (by omega)]
  rw [if_pos (by omega)]

/-- Aging-table step 18. -/
theorem cp_interval_18 (n : Int) (h1 : 1939 ≤ n) (h2 : n < 2161) : compute_priority n = 2 := by
  unfold compute_priority
  repeat rw [if_neg (by omega)]
  rw [if_pos (by omega)]

/-- Aging-table step 19. -/
theorem cp_interval_19 (n : Int) (h1 : 2161 ≤ n) (h2 : n < 2395) : compute_priority n = 1 := by
  unfold compute_priority
  repeat rw [if_neg (by omega)]
  rw [if_pos (by omega)]

/-- Aging-table step 20. -/
theorem cp_interval_20 (n : Int) (h1 : 2395 ≤ n) : compute_priority n = 0 := by
  unfold compute_priority
  repeat rw [if_neg (by omega)]

/-- Upper bound of `compute_priority` past threshold 2395. -/
theorem cp_ub_20 (n : Int) (h : 2395 ≤ n) : compute_priority n ≤ 0 := by
  rw [cp_interval_20 n h]

/-- Upper bound of `compute_priority` past threshold 2161. -/
theorem cp_ub_19 (n : Int) (h : 2161 ≤ n) : compute_priority n ≤ 1 := by
  by_cases h2 : n < 2395
  · rw [cp_interval_19 n h h2]
  · have := cp_ub_20 n (by omega)
    omega

/-- Upper bound of `compute_priority` past threshold 1939. -/
theorem cp_ub_18 (n : Int) (h : 1939 ≤ n) : compute_priority n ≤ 2 := by
  by_cases h2 : n < 2161
  · rw [cp_interval_18 n h h2]
  · have := cp_ub_19 n (by omega)
    omega

/-- Upper bound of `compute_priority` past threshold 1729. -/
theorem cp_ub_17 (n : Int) (h : 1729 ≤ n) : compute_priority n ≤ 3 := by
  by_cases h2 : n < 1939
  · rw [cp_interval_17 n h h2]
  · have := cp_ub_18 n (by omega)
    omega

/-- Upper bound of `compute_priority` past threshold 1531. -/
theorem cp_ub_16 (n : Int) (h : 1531 ≤ n) : compute_priority n ≤ 4 := by
  by_cases h2 : n < 1729
  · rw [cp_interval_16 n h h2]
  · have := cp_ub_17 n (by omega)
    omega

/-- Upper bound of `compute_priority` past threshold 1345. -/
theorem cp_ub_15 (n : Int) (h : 1345 ≤ n) : compute_priority n ≤ 5 := by
  by_cases h2 : n < 1531
  · rw [cp_interval_15 n h h2]
  · have := cp_ub_16 n (by omega)
    omega

/-- Upper bound of `compute_priority` past threshold 1171. -/
theorem cp_ub_14 (n : Int) (h : 1171 ≤ n) : compute_priority n ≤ 6 := by
  by_cases h2 : n < 1345
  · rw [cp_interval_14 n h h2]
  · have := cp_ub_15 n (by omega)
    omega

/-- Upper bound of `compute_priority` past threshold 1009. -/
theorem cp_ub_13 (n : Int) (h : 1009 ≤ n) : compute_priority n ≤ 7 := by
  by_cases h2 : n < 1171
  · rw [cp_interval_13 n h h2]
  · have := cp_ub_14 n (by omega)
    omega

/-- Upper bound of `compute_priority` past threshold 859. -/
theorem cp_ub_12 (n : Int) (h : 859 ≤ n) : compute_priority n ≤ 8 := by
  by_cases h2 : n < 1009
  · rw [cp_interval_12 n h h2]
  · have := cp_ub_13 n (by omega)
    omega

/-- Upper bound of `compute_priority` past threshold 721. -/
theorem cp_ub_11 (n : Int) (h : 721 ≤ n) : compute_priority n ≤ 9 := by
  by_cases h2 : n < 859
  · rw [cp_interval_11 n h h2]
  · have := cp_ub_12 n (by omega)
    omega

/-- Upper bound of `compute_priority` past threshold 595. -/
theorem cp_ub_10 (n : Int) (h : 595 ≤ n) : compute_priority n ≤ 10 := by
  by_cases h2 : n < 721
  · rw [cp_interval_10 n h h2]
  · have := cp_ub_11 n (by omega)
    omega

/-- Upper bound of `compute_priority` past threshold 481. -/
theorem cp_ub_9 (n : Int) (h : 481 ≤ n) : compute_priority n ≤ 11 := by
  by_cases h2 : n < 595
  · rw [cp_interval_9 n h h2]
  · have := cp_ub_10 n (by omega)
    omega

/-- Upper bound of `compute_priority` past threshold 379. -/
theorem cp_ub_8 (n : Int) (h : 379 ≤ n) : compute_priority n ≤ 12 := by
  by_cases h2 : n < 481
  · rw [cp_interval_8 n h h2]
  · have := cp_ub_9 n (by omega)
    omega

/-- Upper bound of `compute_priority` past threshold 289. -/
theorem cp_ub_7 (n : Int) (h : 289 ≤ n) : compute_priority n ≤ 13 := by
  by_cases h2 : n < 379
  · rw [cp_interval_7 n h h2]
  · have := cp_ub_8 n (by omega)
    omega

/-- Upper bound of `compute_priority` past threshold 211. -/
theorem cp_ub_6 (n : Int) (h : 211 ≤ n) : compute_priority n ≤ 14 := by
  by_cases h2 : n < 289
  · rw [cp_interval_6 n h h2]
  · have := cp_ub_7 n (by omega)
    omega

/-- Upper bound of `compute_priority` past threshold 145. -/
theorem cp_ub_5 (n : Int) (h : 145 ≤ n) : compute_priority n ≤ 15 := by
  by_cases h2 : n < 211
  · rw [cp_interval_5 n h h2]
  · have := cp_ub_6 n (by omega)
    omega

/-- Upper bound of `compute_priority` past threshold 91. -/
theorem cp_ub_4 (n : Int) (h : 91 ≤ n) : compute_priority n ≤ 16 := by
  by_cases h2 : n < 145
  · rw [cp_interval_4 n h h2]
  · have := cp_ub_5 n (by omega)
    omega

/-- Upper bound of `compute_priority` past threshold 49. -/
theorem cp_ub_3 (n : Int) (h : 49 ≤ n) : compute_priority n ≤ 17 := by
  by_cases h2 : n < 91
  · rw [cp_interval_3 n h h2]
  · have := cp_ub_4 n (by omega)
    omega

/-- Upper bound of `compute_priority` past threshold 19. -/
theorem cp_ub_2 (n : Int) (h : 19 ≤ n) : compute_priority n ≤ 18 := by
  by_cases h2 : n < 49
  · rw [cp_interval_2 n h h2]
  · have := cp_ub_3 n (by omega)
    omega

/-- Upper bound of `compute_priority` past threshold 5. -/
theorem cp_ub_1 (n : Int) (h : 5 ≤ n) : compute_priority n ≤ 19 := by
  by_cases h2 : n < 19
  · rw [cp_interval_1 n h h2]
  · have := cp_ub_2 n (by omega)
    omega

/-- `compute_priority` never exceeds 20. -/
theorem cp_ub_0 (n : Int) : compute_priority n ≤ 20 := by
  by_cases h : n < 5
  · rw [cp_interval_0 n h]
  · have := cp_ub_1 n (by omega)
    omega

/-- `compute_priority` is never negative. -/
theorem cp_nonneg (n : Int) : 0 ≤ compute_priority n := by
  by_cases h0 : n < 5
  · rw [cp_interval_0 n h0]; norm_num
  by_cases h1 : n < 19
  · rw [cp_interval_1 n (by omega) h1]; norm_num
  by_cases h2 : n < 49
  · rw [cp_interval_2 n (by omega) h2]; norm_num
  by_cases h3 : n < 91
  · rw [cp_interval_3 n (by omega) h3]; norm_num
  by_cases h4 : n < 145
  · rw [cp_interval_4 n (by omega) h4]; norm_num
  by_cases h5 : n < 211
  · rw [cp_interval_5 n (by omega) h5]; norm_num
  by_cases h6 : n < 289
  · rw [cp_interval_6 n (by omega) h6]; norm_num
  by_cases h7 : n < 379
  · rw [cp_interval_7 n (by omega) h7]; norm_num
  by_cases h8 : n < 481
  · rw [cp_interval_8 n (by omega) h8]; norm_num
  by_cases h9 : n < 595
  · rw [cp_interval_9 n (by omega) h9]; norm_num
  by_cases h10 : n < 721
  · rw [cp_interval_10 n (by omega) h10]; norm_num
  by_cases h11 : n < 859
  · rw [cp_interval_11 n (by omega) h11]; norm_num
  by_cases h12 : n < 1009
  · rw [cp_interval_12 n (by omega) h12]; norm_num
  by_cases h13 : n < 1171
  · rw [cp_interval_13 n (by omega) h13]; norm_num
  by_cases h14 : n < 1345
  · rw [cp_interval_14 n (by omega) h14]; norm_num
  by_cases h15 : n < 1531
  · rw [cp_interval_15 n (by omega) h15]; norm_num
  by_cases h16 : n < 1729
  · rw [cp_interval_16 n (by omega) h16]; norm_num
  by_cases h17 : n < 1939
  · rw [cp_interval_17 n (by omega) h17]; norm_num
  by_cases h18 : n < 2161
  · rw [cp_interval_18 n (by omega) h18]; norm_num
  by_cases h19 : n < 2395
  · rw [cp_interval_19 n (by omega) h19]; norm_num
  rw [cp_interval_20 n (by omega)]

/-- `compute_priority` is non-increasing. -/
theorem cp_mono (a b : Int) (hab : a ≤ b) : compute_priority b ≤ compute_priority a := by
  by_cases h0 : a < 5
  · rw [cp_interval_0 a h0]; exact cp_ub_0 b
  by_cases h1 : a < 19
  · rw [cp_interval_1 a (by omega) h1]; exact cp_ub_1 b (by omega)
  by_cases h2 : a < 49
  · rw [cp_interval_2 a (by omega) h2]; exact cp_ub_2 b (by omega)
  by_cases h3 : a < 91
  · rw [cp_interval_3 a (by omega) h3]; exact cp_ub_3 b (by omega)
  by_cases h4 : a < 145
  · rw [cp_interval_4 a (by omega) h4]; exact cp_ub_4 b (by omega)
  by_cases h5 : a < 211
  · rw [cp_interval_5 a (by omega) h5]; exact cp_ub_5 b (by omega)
  by_cases h6 : a < 289
  · rw [cp_interval_6 a (by omega) h6]; exact cp_ub_6 b (by omega)
  by_cases h7 : a < 379
  · rw [cp_interval_7 a (by omega) h7]; exact cp_ub_7 b (by omega)
  by_cases h8 : a < 481
  · rw [cp_interval_8 a (by omega) h8]; exact cp_ub_8 b (by omega)
  by_cases h9 : a < 595
  · rw [cp_interval_9 a (by omega) h9]; exact cp_ub_9 b (by omega)
  by_cases h10 : a < 721
  · rw [cp_interval_10 a (by omega) h10]; exact cp_ub_10 b (by omega)
  by_cases h11 : a < 859
  · rw [cp_interval_11 a (by omega) h11]; exact cp_ub_11 b (by omega)
  by_cases h12 : a < 1009
  · rw [cp_interval_12 a (by omega) h12]; exact cp_ub_12 b (by omega)
  by_cases h13 : a < 1171
  · rw [cp_interval_13 a (by omega) h13]; exact cp_ub_13 b (by omega)
  by_cases h14 : a < 1345
  · rw [cp_interval_14 a (by omega) h14]; exact cp_ub_14 b (by omega)
  by_cases h15 : a < 1531
  · rw [cp_interval_15 a (by omega) h15]; exact cp_ub_15 b (by omega)
  by_cases h16 : a < 1729
  · rw [cp_interval_16 a (by omega) h16]; exact cp_ub_16 b (by omega)
  by_cases h17 : a < 1939
  · rw [cp_interval_17 a (by omega) h17]; exact cp_ub_17 b (by omega)
  by_cases h18 : a < 2161
  · rw [cp_interval_18 a (by omega) h18]; exact cp_ub_18 b (by omega)
  by_cases h19 : a < 2395
  · rw [cp_interval_19 a (by omega) h19]; exact cp_ub_19 b (by omega)
  rw [cp_interval_20 a (by omega)]
  exact cp_ub_20 b (by omega)

/-- C5: `compute_priority` is a non-increasing function of the submitted-task
count, its result always lies in [0, 20], and it steps down from 20 to 0
exactly at the thresholds 5, 19, 49, 91, 145, 211, 289, 379, 481, 595, 721,
859, 1009, 1171, 1345, 1531, 1729, 1939, 2161, 2395 (value 20 - k on the
interval between the k-th and (k+1)-th threshold). -/
theorem compute_priority_spec :
    (∀ a b : Int, a ≤ b → compute_priority b ≤ compute_priority a)
  ∧ (∀ n : Int, 0 ≤ compute_priority n ∧ compute_priority n ≤ 20)
  ∧ (∀ n : Int, n < 5 → compute_priority n = 20)
  ∧ (∀ n : Int, 5 ≤ n → n < 19 → compute_priority n = 19)
  ∧ (∀ n : Int, 19 ≤ n → n < 49 → compute_priority n = 18)
  ∧ (∀ n : Int, 49 ≤ n → n < 91 → compute_priority n = 17)
  ∧ (∀ n : Int, 91 ≤ n → n < 145 → compute_priority n = 16)
  ∧ (∀ n : Int, 145 ≤ n → n < 211 → compute_priority n = 15)
  ∧ (∀ n : Int, 211 ≤ n → n < 289 → compute_priority n = 14)
  ∧ (∀ n : Int, 289 ≤ n → n < 379 → compute_priority n = 13)
  ∧ (∀ n : Int, 379 ≤ n → n < 481 → compute_priority n = 12)
  ∧ (∀ n : Int, 481 ≤ n → n < 595 → compute_priority n = 11)
  ∧ (∀ n : Int, 595 ≤ n → n < 721 → compute_priority n = 10)
  ∧ (∀ n : Int, 721 ≤ n → n < 859 → compute_priority n = 9)
  ∧ (∀ n : Int, 859 ≤ n → n < 1009 → compute_priority n = 8)
  ∧ (∀ n : Int, 1009 ≤ n → n < 1171 → compute_priority n = 7)
  ∧ (∀ n : Int, 1171 ≤ n → n < 1345 → compute_priority n = 6)
  ∧ (∀ n : Int, 1345 ≤ n → n < 1531 → compute_priority n = 5)
  ∧ (∀ n : Int, 1531 ≤ n → n < 1729 → compute_priority n = 4)
  ∧ (∀ n : Int, 1729 ≤ n → n < 1939 → compute_priority n = 3)
  ∧ (∀ n : Int, 1939 ≤ n → n < 2161 → compute_priority n = 2)
  ∧ (∀ n : Int, 2161 ≤ n → n < 2395 → compute_priority n = 1)
  ∧ (∀ n : Int, 2395 ≤ n → compute_priority n = 0) :=
  ⟨cp_mono, fun n => ⟨cp_nonneg n, cp_ub_0 n⟩, cp_interval_0, cp_interval_1,
   cp_interval_2, cp_interval_3, cp_interval_4, cp_interval_5, cp_interval_6,
   cp_interval_7, cp_interval_8, cp_interval_9, cp_interval_10, cp_interval_11,
   cp_interval_12, cp_interval_13, cp_interval_14, cp_interval_15, cp_interval_16,
   cp_interval_17, cp_interval_18, cp_interval_19, cp_interval_20⟩

/-- C5 witness: the theorem applied at submit counts 3 and 600 (after 600
submits the priority is 10, below the priority 20 of the 3rd submit). -/
theorem compute_priority_spec_witness :
    compute_priority 600 ≤ compute_priority 3
    ∧ compute_priority 600 = 10
    ∧ compute_priority 3 = 20 :=
  ⟨compute_priority_spec.1 3 600 (by norm_num),
   compute_priority_spec.2.2.2.2.2.2.2.2.2.2.2.2.1 600 (by norm_num) (by norm_num),
   compute_priority_spec.2.2.1 3 (by norm_num)⟩

/-- C6: `_submit_scanner` increments `_scanner_submit_count` by 0 when the
scanner keeps its priority and by 1 otherwise, increments `_running_threads`
before offering; with `blockable = true` it always returns true; with
`blockable = false` and a failed non-blocking offer it undoes both counters
(returning them to their prior values) and returns false. -/
theorem submit_scanner_spec (c : SubmitCounters) (kp blockable try_ok : Bool) :
    (blockable = true → (submit_scanner c kp blockable try_ok).2.2 = true)
  ∧ (blockable = false → try_ok = false →
      (submit_scanner c kp blockable try_ok).2.2 = false
      ∧ (submit_scanner c kp blockable try_ok).1 = c)
  ∧ ((submit_scanner c kp blockable try_ok).2.2 = true →
      (submit_scanner c kp blockable try_ok).1.running_threads = c.running_threads + 1
      ∧ (submit_scanner c kp blockable try_ok).1.scanner_submit_count
          = c.scanner_submit_count + (if kp then 0 else 1)) := by
  refine ⟨?_, ?_, ?_⟩
  · intro hb
    subst hb
    by_cases ht : try_ok <;> simp [submit_scanner, ht]
  · intro hb ht
    subst hb; subst ht
    refine ⟨by simp [submit_scanner], ?_⟩
    cases c with
    | mk rt sc => simp [submit_scanner]
  · intro hres
    by_cases ht : try_ok
    · simp [submit_scanner, ht]
    · by_cases hb : blockable
      · simp [submit_scanner, ht, hb]
      · simp [submit_scanner, ht, hb] at hres

/-- C6 witness: the failed non-blocking path applied to concrete counters
leaves them unchanged and returns false; the blocking path returns true. -/
theorem submit_scanner_spec_witness :
    ((submit_scanner ⟨2, 5⟩ false false false).2.2 = false
      ∧ (submit_scanner ⟨2, 5⟩ false false false).1 = ⟨2, 5⟩)
    ∧ (submit_scanner ⟨2, 5⟩ false true false).2.2 = true :=
  ⟨(submit_scanner_spec ⟨2, 5⟩ false false false).2.1 rfl rfl,
   (submit_scanner_spec ⟨2, 5⟩ false true false).1 rfl⟩

/-- C10: when the filesystem steps (create, append, close) all succeed,
`put_tablet_metadata` and `put_txn_log` (with both required ids present)
return OK regardless of whether the metacache accepted the entry; the cache
outcome affects only the cached flag, never the status. -/
theorem put_ok_despite_cache_failure (metadata : TabletMetadata) (log : TxnLog)
    (env : PutEnv) :
    (env.create_file = Status.ok → env.append_file = Status.ok →
      env.close_file = Status.ok →
      put_tablet_metadata metadata env = (Status.ok, fill_metacache env.cache_insert_ok)
      ∧ (log.tablet_id ≠ none → log.txn_id ≠ none →
          put_txn_log log env = (Status.ok, fill_metacache env.cache_insert_ok)))
  ∧ (∀ b1 b2 : Bool,
      (put_tablet_metadata metadata { env with cache_insert_ok := b1 }).1
        = (put_tablet_metadata metadata { env with cache_insert_ok := b2 }).1
      ∧ (put_txn_log log { env with cache_insert_ok := b1 }).1
        = (put_txn_log log { env with cache_insert_ok := b2 }).1) := by
  constructor
  · intro h1 h2 h3
    constructor
    · simp [put_tablet_metadata, h1, h2, h3]
    · intro ht hx
      simp [put_txn_log, h1, h2, h3, ht, hx]
  · intro b1 b2
    constructor
    · unfold put_tablet_metadata
      split_ifs <;> rfl
    · unfold put_txn_log
      split_ifs <;> rfl

/-- C10 witness: the theorem applied to a concrete metadata, txn log and an
environment whose cache insert is rejected: both puts still return OK. -/
theorem put_ok_despite_cache_failure_witness :
    put_tablet_metadata exMeta5 ⟨Status.ok, Status.ok, Status.ok, false⟩
        = (Status.ok, false)
    ∧ put_txn_log exLogW ⟨Status.ok, Status.ok, Status.ok, false⟩
        = (Status.ok, false) :=
  ⟨((put_ok_despite_cache_failure exMeta5 exLogW
      ⟨Status.ok, Status.ok, Status.ok, false⟩).1 rfl rfl rfl).1,
   ((put_ok_despite_cache_failure exMeta5 exLogW
      ⟨Status.ok, Status.ok, Status.ok, false⟩).1 rfl rfl rfl).2
      (by simp [exLogW]) (by simp [exLogW])⟩

/-- Setting one element of a boolean list changes the true-count by the
difference between the new and the old value. -/
theorem countP_set_add (l : List Bool) (i : Nat) (v : Bool) (h : i < l.length) :
    (l.set i v).countP id + (if l.getD i false then 1 else 0)
      = l.countP id + (if v then 1 else 0) := by
  induction l generalizing i with
  | nil => cases h
  | cons a l ih =>
      cases i with
      | zero =>
          simp only [List.set, List.getD_cons_zero, List.countP_cons]
          cases a <;> cases v <;> simp
      | succ j =>
          have hj : j < l.length := Nat.lt_of_succ_lt_succ h
          have hrec := ih j hj
          simp only [List.set, List.getD_cons_succ, List.countP_cons]
          cases a <;> simp at hrec ⊢ <;> omega

/-- One token step preserves "at most one token". -/
theorem tokenStep_invariant (s s' : TokenState) (hstep : TokenStep s s')
    (h : tokenCount s ≤ 1) : tokenCount s' ≤ 1 := by
  cases hstep with
  | acquire i hi =>
      have hget : s.scanners.get ⟨i, hi⟩ = s.scanners.getD i false := by
        rw [List.getD_eq_getElem _ _ hi]
        simp [List.get_eq_getElem]
      unfold tokenCount at h ⊢
      simp only [hget]
      have hcnt := countP_set_add s.scanners i
        ((acquire_pending_token s.node (s.scanners.getD i false)).2.2) hi
      cases hn : s.node with
      | true =>
          rw [hn] at h hcnt
          have h2 : 1 + List.countP id s.scanners ≤ 1 := h
          cases hb : s.scanners.getD i false with
          | false =>
              rw [hb] at hcnt
              have hc : List.countP id (s.scanners.set i true) + 0
                  = List.countP id s.scanners + 1 := hcnt
              show 0 + List.countP id (s.scanners.set i true) ≤ 1
              omega
          | true =>
              rw [hb] at hcnt
              have hc : List.countP id (s.scanners.set i true) + 1
                  = List.countP id s.scanners + 1 := hcnt
              show 1 + List.countP id (s.scanners.set i true) ≤ 1
              omega
      | false =>
          rw [hn] at h hcnt
          have h2 : 0 + List.countP id s.scanners ≤ 1 := h
          cases hb : s.scanners.getD i false with
          | false =>
              rw [hb] at hcnt
              have hc : List.countP id (s.scanners.set i false) + 0
                  = List.countP id s.scanners + 0 := hcnt
              show 0 + List.countP id (s.scanners.set i false) ≤ 1
              omega
          | true =>
              rw [hb] at hcnt
              have hc : List.countP id (s.scanners.set i true) + 1
                  = List.countP id s.scanners + 1 := hcnt
              show 0 + List.countP id (s.scanners.set i true) ≤ 1
              omega
  | release i hi =>
      have hget : s.scanners.get ⟨i, hi⟩ = s.scanners.getD i false := by
        rw [List.getD_eq_getElem _ _ hi]
        simp [List.get_eq_getElem]
      unfold tokenCount at h ⊢
      simp only [hget]
      have hcnt := countP_set_add s.scanners i
        ((release_pending_token s.node (s.scanners.getD i false)).2.2) hi
      cases hn : s.node with
      | true =>
          rw [hn] at h hcnt
          have h2 : 1 + List.countP id s.scanners ≤ 1 := h
          cases hb : s.scanners.getD i false with
          | false =>
              rw [hb] at hcnt
              have hc : List.countP id (s.scanners.set i false) + 0
                  = List.countP id s.scanners + 0 := hcnt
              show 1 + List.countP id (s.scanners.set i false) ≤ 1
              omega
          | true =>
              rw [hb] at hcnt
              have hc : List.countP id (s.scanners.set i false) + 1
                  = List.countP id s.scanners + 0 := hcnt
              show 1 + List.countP id (s.scanners.set i false) ≤ 1
              omega
      | false =>
          rw [hn] at h hcnt
          have h2 : 0 + List.countP id s.scanners ≤ 1 := h
          cases hb : s.scanners.getD i false with
          | false =>
              rw [hb] at hcnt
              have hc : List.countP id (s.scanners.set i false) + 0
                  = List.countP id s.scanners + 0 := hcnt
              show 0 + List.countP id (s.scanners.set i false) ≤ 1
              omega
          | true =>
              rw [hb] at hcnt
              have hc : List.countP id (s.scanners.set i false) + 1
                  = List.countP id s.scanners + 0 := hcnt
              show 1 + List.countP id (s.scanners.set i false) ≤ 1
              omega

/-- A list of all-false scanner slots contributes no tokens. -/
theorem countP_replicate_false (n : Nat) :
    (List.replicate n false).countP id = 0 := by
  induction n with
  | zero => rfl
  | succ k ih => simp [List.replicate, List.countP_cons, ih]

/-- C7: at most one scanner ever holds `_pending_token = true`.  First
conjunct: from any start state with all scanner tokens false, every state
reachable through acquire/release steps has at most one true token in total
(node slot plus scanners).  Remaining conjuncts: `acquire_pending_token`
moves the token from the node slot to the scanner only when the node slot
holds true (CAS) and is a no-op otherwise; `release_pending_token` moves it
back only when the scanner holds it and is a no-op otherwise. -/
theorem pending_token_at_most_one :
    (∀ (b : Bool) (n : Nat) (s : TokenState),
      Relation.ReflTransGen TokenStep { node := b, scanners := List.replicate n false } s →
      tokenCount s ≤ 1)
  ∧ (acquire_pending_token true false = (true, false, true))
  ∧ (∀ sc, acquire_pending_token false sc = (false, false, sc))
  ∧ (∀ nd, release_pending_token nd true = (true, true, false))
  ∧ (∀ nd, release_pending_token nd false = (false, nd, false)) := by
  refine ⟨?_, rfl, fun sc => rfl, fun nd => rfl, fun nd => rfl⟩
  intro b n s hreach
  induction hreach with
  | refl =>
      unfold tokenCount
      rw [countP_replicate_false]
      cases b <;> simp
  | tail hsteps hstep ih => exact tokenStep_invariant _ _ hstep ih

/-- C7 witness: the invariant applied to the state reached by one acquire
step from a two-scanner node holding the token. -/
theorem pending_token_at_most_one_witness :
    tokenCount { node := false, scanners := [true, false] } ≤ 1 :=
  pending_token_at_most_one.1 true 2 { node := false, scanners := [true, false] }
    (Relation.ReflTransGen.single
      (TokenStep.acquire { node := true, scanners := List.replicate 2 false } 0 (by decide)))

/-- Once a scanner is open, any further `open` calls leave it untouched. -/
theorem scanner_open_run_of_open (s : ScannerOpenState) (h : s.is_open = true)
    (rs : List Status) : scanner_open_run s rs = s := by
  induction rs with
  | nil => rfl
  | cons a as ih =>
      rw [scanner_open_run, show scanner_open s a = (Status.ok, s) from by
        simp [scanner_open, h]]
      exact ih

/-- C9 counterexample: the claim "the data source's open is invoked at most
once over the scanner's lifetime" fails as stated: a scanner whose first
`open` fails (is_open stays false) invokes the data source's open again on
the next call, for a total of two invocations. -/
theorem scanner_open_twice :
    (scanner_open_run { is_open := false, ds_open_calls := 0 }
      [Status.internalError "open failed", Status.ok]).ds_open_calls = 2 := rfl

/-- C9 (amended): `ConnectorScanner::open` is idempotent: a scanner already
in the open state returns OK at once, without invoking the underlying data
source's open, and stays open (also across any further call sequence); and
the data source's open is invoked at most once over the scanner's lifetime
as long as no invocation fails (a further invocation can happen only after a
failed one). -/
theorem scanner_open_idempotent (s : ScannerOpenState) (r : Status)
    (rs : List Status) :
    (s.is_open = true → scanner_open s r = (Status.ok, s))
  ∧ (s.is_open = true → scanner_open_run s rs = s)
  ∧ ((∀ x ∈ rs, x = Status.ok) →
      (scanner_open_run { is_open := false, ds_open_calls := 0 } rs).ds_open_calls ≤ 1) := by
  refine ⟨?_, ?_, ?_⟩
  · intro h
    simp [scanner_open, h]
  · intro h
    exact scanner_open_run_of_open s h rs
  · intro hall
    cases rs with
    | nil => decide
    | cons a as =>
        have ha : a = Status.ok := hall a (List.mem_cons_self a as)
        subst ha
        rw [scanner_open_run, show
          scanner_open { is_open := false, ds_open_calls := 0 } Status.ok
            = (Status.ok, { is_open := true, ds_open_calls := 1 }) from rfl]
        rw [scanner_open_run_of_open { is_open := true, ds_open_calls := 1 } rfl as]

/-- C9 witness: the amended theorem applied to an already open scanner and
to an all-successful call sequence. -/
theorem scanner_open_idempotent_witness :
    scanner_open { is_open := true, ds_open_calls := 1 } Status.ok
        = (Status.ok, { is_open := true, ds_open_calls := 1 })
    ∧ (scanner_open_run { is_open := false, ds_open_calls := 0 }
        [Status.ok, Status.ok, Status.ok]).ds_open_calls ≤ 1 :=
  ⟨(scanner_open_idempotent { is_open := true, ds_open_calls := 1 }
      Status.ok []).1 rfl,
   (scanner_open_idempotent { is_open := true, ds_open_calls := 1 }
      Status.ok [Status.ok, Status.ok, Status.ok]).2.2 (by decide)⟩

/-- Once `_status` holds end-of-file, `get_next` returns no rows and leaves
the state unchanged. -/
theorem get_next_rows_eof (limit : Int) (s : ConsumerState) (c : Nat)
    (h : s.eof = true) : get_next_rows limit s c = (s, 0) := by
  simp [get_next_rows, h]

/-- After end-of-file, a whole run delivers no further rows. -/
theorem consumer_run_eof (limit : Int) (s : ConsumerState) (cs : List Nat)
    (h : s.eof = true) : consumer_run limit s cs = 0 := by
  induction cs with
  | nil => rfl
  | cons c cs ih =>
      rw [consumer_run, get_next_rows_eof limit s c h]
      simpa using ih

/-- After end-of-file, the state no longer changes. -/
theorem consumer_final_eof (limit : Int) (s : ConsumerState) (cs : List Nat)
    (h : s.eof = true) : consumer_final limit s cs = s := by
  induction cs with
  | nil => rfl
  | cons c cs ih =>
      rw [consumer_final, get_next_rows_eof limit s c h]
      exact ih

/-- Rows delivered by a run never exceed the remaining budget. -/
theorem consumer_run_le (limit : Int) (s : ConsumerState) (cs : List Nat)
    (hlim : 0 ≤ limit) (hs : s.eof = false) (hr : s.num_rows_returned ≤ limit) :
    consumer_run limit s cs ≤ limit - s.num_rows_returned := by
  induction cs generalizing s with
  | nil =>
      rw [consumer_run]
      omega
  | cons c cs ih =>
      rw [consumer_run]
      unfold get_next_rows
      rw [if_neg (by simp [hs])]
      by_cases hrch : reached_limit limit (s.num_rows_returned + (c : Int)) = true
      · rw [if_pos hrch]
        simp only [reached_limit, Bool.and_eq_true, bne_iff_ne, ne_eq,
          decide_eq_true_eq, ge_iff_le] at hrch
        rw [consumer_run_eof limit _ cs rfl]
        dsimp only
        omega
      · rw [if_neg hrch]
        simp only [reached_limit, Bool.and_eq_true, bne_iff_ne, ne_eq,
          decide_eq_true_eq, ge_iff_le, not_and, not_le] at hrch
        have hlt : s.num_rows_returned + (c : Int) < limit := hrch (by omega)
        have ih2 := ih { s with num_rows_returned := s.num_rows_returned + (c : Int) }
          hs (by simp; omega)
        simp only at ih2 ⊢
        omega

/-- When the queue carries at least the limit, the run delivers exactly the
remaining budget and ends with end-of-file and a shut-down queue. -/
theorem consumer_run_exact (limit : Int) (s : ConsumerState) (cs : List Nat)
    (hlim : 0 ≤ limit) (hs : s.eof = false) (hr : s.num_rows_returned ≤ limit)
    (hsum : limit ≤ s.num_rows_returned + (cs.sum : Int)) (hne : cs ≠ []) :
    consumer_run limit s cs = limit - s.num_rows_returned
    ∧ (consumer_final limit s cs).eof = true
    ∧ (consumer_final limit s cs).queue_shutdown = true := by
  induction cs generalizing s with
  | nil => exact absurd rfl hne
  | cons c cs ih =>
      rw [consumer_run, consumer_final]
      unfold get_next_rows
      rw [if_neg (by simp [hs])]
      by_cases hrch : reached_limit limit (s.num_rows_returned + (c : Int)) = true
      · rw [if_pos hrch]
        simp only [reached_limit, Bool.and_eq_true, bne_iff_ne, ne_eq,
          decide_eq_true_eq, ge_iff_le] at hrch
        rw [consumer_run_eof limit _ cs rfl, consumer_final_eof limit _ cs rfl]
        dsimp only
        refine ⟨by omega, rfl, rfl⟩
      · rw [if_neg hrch]
        simp only [reached_limit, Bool.and_eq_true, bne_iff_ne, ne_eq,
          decide_eq_true_eq, ge_iff_le, not_and, not_le] at hrch
        have hlt : s.num_rows_returned + (c : Int) < limit := hrch (by omega)
        have hcs : cs ≠ [] := by
          intro hnil
          subst hnil
          simp at hsum
          omega
        have ih2 := ih { s with num_rows_returned := s.num_rows_returned + (c : Int) }
          hs (by simp; omega) (by simp at hsum ⊢; omega) hcs
        simp only at ih2 ⊢
        obtain ⟨h1, h2, h3⟩ := ih2
        refine ⟨by omega, h2, h3⟩

/-- C4: in the consumer loop of `get_next`, once the cumulative returned-row
count reaches the node limit the returned chunk is truncated so that the
run's total equals exactly the limit, the node status becomes end-of-file
and the result queue is shut down; the total delivered over any run never
exceeds the limit.  The last conjunct is the single truncating call: the
chunk is cut to `limit - rows_so_far` and the state flips to
eof/shutdown. -/
theorem get_next_limit_spec (limit : Int) (cs : List Nat) :
    (0 ≤ limit → consumer_run limit initConsumer cs ≤ limit)
  ∧ (0 ≤ limit → limit ≤ (cs.sum : Int) → cs ≠ [] →
      consumer_run limit initConsumer cs = limit
      ∧ (consumer_final limit initConsumer cs).eof = true
      ∧ (consumer_final limit initConsumer cs).queue_shutdown = true)
  ∧ (∀ (s : ConsumerState) (c : Nat), s.eof = false →
      reached_limit limit (s.num_rows_returned + (c : Int)) = true →
      get_next_rows limit s c =
        ({ num_rows_returned := s.num_rows_returned + (c : Int), eof := true,
           queue_shutdown := true }, limit - s.num_rows_returned)) := by
  refine ⟨?_, ?_, ?_⟩
  · intro hlim
    have h := consumer_run_le limit initConsumer cs hlim rfl hlim
    simpa [initConsumer] using h
  · intro hlim hsum hne
    have h := consumer_run_exact limit initConsumer cs hlim rfl hlim
      (by simpa [initConsumer] using hsum) hne
    simpa [initConsumer] using h
  · intro s c hs hrch
    unfold get_next_rows
    rw [if_neg (by simp [hs]), if_pos hrch]
    rw [Prod.mk.injEq]
    exact ⟨rfl, by omega⟩

/-- C4 witness: the spec's single-scanner scenario — three 1024-row chunks
against limit 1500 deliver exactly 1500 rows, end in end-of-file and shut
the queue down, and never exceed the limit. -/
theorem get_next_limit_spec_witness :
    consumer_run 1500 initConsumer [1024, 1024, 1024] ≤ 1500
    ∧ consumer_run 1500 initConsumer [1024, 1024, 1024] = 1500
    ∧ (consumer_final 1500 initConsumer [1024, 1024, 1024]).eof = true
    ∧ (consumer_final 1500 initConsumer [1024, 1024, 1024]).queue_shutdown = true :=
  ⟨(get_next_limit_spec 1500 [1024, 1024, 1024]).1 (by norm_num),
   ((get_next_limit_spec 1500 [1024, 1024, 1024]).2.1 (by norm_num) (by norm_num)
      (by decide)).1,
   ((get_next_limit_spec 1500 [1024, 1024, 1024]).2.1 (by norm_num) (by norm_num)
      (by decide)).2.1,
   ((get_next_limit_spec 1500 [1024, 1024, 1024]).2.1 (by norm_num) (by norm_num)
      (by decide)).2.2⟩

end StarRocks
